import Mathlib

/-!
Verification of the graph synchronization protocol of
`topology/graph/server.go` (skydive).

The file shallowly embeds the message envelope codec (`UnmarshalWSMessage`),
the dispatcher (`GraphServer.OnMessage`) and the event relay
(`OnNodeUpdated` … `OnEdgeDeleted`) as pure Lean functions, and proves the
spec's testable properties about them.

The graph collaborator (`Graph`, `Node`, `Edge` and their methods) lives in
a different file of the repository that is not part of the verified source;
its operations are modelled from the spec (sections 3 and 6), each such
definition carrying a `Modelled from the spec:` doc comment.
-/

namespace Skydive

/-- A generic JSON value, the result of Go's `json.Unmarshal` into an
`interface{}`. Numbers are modelled as integers (no claim depends on
numeric payloads). -/
inductive Json where
  | null : Json
  | bool (b : Bool) : Json
  | num (n : Int) : Json
  | str (s : String) : Json
  | arr (elems : List Json) : Json
  | obj (fields : List (String × Json)) : Json

/-- The raw payload bytes of a message (Go `json.RawMessage`), modelled at
the granularity at which the code observes them: either they fail the
generic `json.Unmarshal` stage, or they parse to a generic `Json` value. -/
inductive RawJson where
  | malformed : RawJson
  | wellFormed (j : Json) : RawJson

/-- Field lookup in a decoded generic JSON object (first match wins). -/
def lookupField (fields : List (String × Json)) (key : String) : Option Json :=
  match fields with
  | [] => none
  | (k, v) :: rest => if k = key then some v else lookupField rest key

/-- Modelled from the spec: a `Node` (spec section 3) is an opaque identity
`ID`, unique within the graph, plus a metadata key-to-value mapping.
The `Node` struct itself is defined in the graph collaborator, outside the
verified source. -/
structure Node where
  ID : String
  metadata : List (String × Json)

/-- Modelled from the spec: an `Edge` (spec section 3) is an identity `ID`,
two endpoint node identities, and a metadata mapping. The `Edge` struct
itself is defined in the graph collaborator, outside the verified source. -/
structure Edge where
  ID : String
  parent : String
  child : String
  metadata : List (String × Json)

/-- Modelled from the spec: the `Graph` collaborator (spec section 3) owns
the full set of nodes and edges. -/
structure Graph where
  nodes : List Node
  edges : List Edge

/-- The protocol namespace constant (`const Namespace = "Graph"`). -/
def Namespace : String := "Graph"

/-- The wire envelope `shttp.WSMessage`: namespace, type and opaque
payload. The Go field `Type` is spelled `Ty` because `Type` is reserved in
Lean; `Obj` holds the payload bytes (`*json.RawMessage`). -/
structure WSMessage where
  Namespace : String
  Ty : String
  Obj : RawJson

/-- Modelled from the spec: `Node.Decode` turns a generic JSON structure
into a `Node` (spec section 4.1: payload must parse "as a Node";
section 3: a Node is an `ID` plus metadata). Decoding fails when the
structure is not an object with a string `ID`. -/
def Node.decode (j : Json) : Option Node :=
  match j with
  | Json.obj fields =>
    match lookupField fields "ID" with
    | some (Json.str id) =>
      match lookupField fields "Metadata" with
      | some (Json.obj meta) => some { ID := id, metadata := meta }
      | some _ => none
      | none => some { ID := id, metadata := [] }
    | _ => none
  | _ => none

/-- Modelled from the spec: `Edge.Decode` turns a generic JSON structure
into an `Edge` (spec section 4.1; section 3: identity, two endpoint node
identities, metadata). Decoding fails when the structure is not an object
with string `ID`, `Parent` and `Child` fields. -/
def Edge.decode (j : Json) : Option Edge :=
  match j with
  | Json.obj fields =>
    match lookupField fields "ID", lookupField fields "Parent",
          lookupField fields "Child" with
    | some (Json.str id), some (Json.str p), some (Json.str c) =>
      match lookupField fields "Metadata" with
      | some (Json.obj meta) =>
        some { ID := id, parent := p, child := c, metadata := meta }
      | some _ => none
      | none => some { ID := id, parent := p, child := c, metadata := [] }
    | _, _, _ => none
  | _ => none

/-- Modelled from the spec: `Graph.GetNode` is lookup-by-ID
(spec section 6: `getNode(id)`). -/
def Graph.GetNode (g : Graph) (id : String) : Option Node :=
  g.nodes.find? (fun m => m.ID == id)

/-- Modelled from the spec: `Graph.GetEdge` is lookup-by-ID
(spec section 6: `getEdge(id)`). -/
def Graph.GetEdge (g : Graph) (id : String) : Option Edge :=
  g.edges.find? (fun m => m.ID == id)

/-- Modelled from the spec: `Graph.AddNode` adds the node to the set owned
by the graph (spec section 6: `addNode(n)`). -/
def Graph.AddNode (g : Graph) (n : Node) : Graph :=
  { g with nodes := g.nodes ++ [n] }

/-- Modelled from the spec: `Graph.AddEdge` adds the edge
(spec section 6: `addEdge(e)`). -/
def Graph.AddEdge (g : Graph) (e : Edge) : Graph :=
  { g with edges := g.edges ++ [e] }

/-- Modelled from the spec: `Graph.DelNode` deletes by identity; deleting a
non-existent node is a safe no-op (spec section 4.2, `NodeDeleted`). -/
def Graph.DelNode (g : Graph) (n : Node) : Graph :=
  { g with nodes := g.nodes.filter (fun m => !(m.ID == n.ID)) }

/-- Modelled from the spec: `Graph.DelEdge` deletes by identity; deleting a
non-existent edge is a safe no-op (spec section 4.2, `EdgeDeleted`). -/
def Graph.DelEdge (g : Graph) (e : Edge) : Graph :=
  { g with edges := g.edges.filter (fun m => !(m.ID == e.ID)) }

/-- Modelled from the spec: `Graph.SetMetadata` on a node replaces that
node's metadata with the incoming metadata (spec section 6:
`setMetadata(entity, metadata)`; section 3: "metadata replace"). The Go
method takes either entity kind; the node instance is embedded here. -/
def Graph.SetNodeMetadata (g : Graph) (n : Node)
    (meta : List (String × Json)) : Graph :=
  { g with nodes := g.nodes.map (fun m =>
      if m.ID == n.ID then { m with metadata := meta } else m) }

/-- Modelled from the spec: `Graph.SetMetadata` on an edge replaces that
edge's metadata with the incoming metadata (spec section 6). -/
def Graph.SetEdgeMetadata (g : Graph) (e : Edge)
    (meta : List (String × Json)) : Graph :=
  { g with edges := g.edges.map (fun m =>
      if m.ID == e.ID then { m with metadata := meta } else m) }

/-- Node identities adjacent to `id` through the graph's edges. -/
def Graph.neighborIds (g : Graph) (id : String) : List String :=
  (g.edges.filter (fun e => e.parent == id || e.child == id)).map
    (fun e => if e.parent == id then e.child else e.parent)

/-- Fuelled breadth-first closure of a node-identity frontier under edge
adjacency. -/
def Graph.reachFrom (g : Graph) : Nat → List String → List String → List String
  | 0, _, visited => visited
  | _, [], visited => visited
  | Nat.succ fuel, id :: frontier, visited =>
    if visited.contains id then g.reachFrom fuel frontier visited
    else g.reachFrom fuel (frontier ++ g.neighborIds id) (visited ++ [id])

/-- Modelled from the spec: `Graph.DelSubGraph` deletes the entire
connected subgraph reachable from the given node (spec section 4.2,
`SubGraphDeleted`: "delete the entire connected subgraph reachable from
it"), removing the reachable nodes and every edge touching them. -/
def Graph.DelSubGraph (g : Graph) (n : Node) : Graph :=
  let doomed := g.reachFrom (g.nodes.length + g.edges.length + 1) [n.ID] []
  { nodes := g.nodes.filter (fun m => !(doomed.contains m.ID)),
    edges := g.edges.filter (fun e =>
      !(doomed.contains e.parent) && !(doomed.contains e.child)) }

/-- Modelled from the spec: a node's JSON serialization
(`Node.JsonRawMessage`; spec section 6: "a serialization producing … as
structured data"). -/
def Node.jsonRawMessage (n : Node) : RawJson :=
  RawJson.wellFormed (Json.obj [("ID", Json.str n.ID),
                                ("Metadata", Json.obj n.metadata)])

/-- Modelled from the spec: an edge's JSON serialization
(`Edge.JsonRawMessage`). -/
def Edge.jsonRawMessage (e : Edge) : RawJson :=
  RawJson.wellFormed (Json.obj [("ID", Json.str e.ID),
                                ("Parent", Json.str e.parent),
                                ("Child", Json.str e.child),
                                ("Metadata", Json.obj e.metadata)])

/-- Modelled from the spec: `json.Marshal(s.Graph)` serializes the entire
current graph — every node and every edge — as structured data
(spec sections 4.2 and 6). -/
def Graph.marshal (g : Graph) : Json :=
  Json.obj [("Nodes", Json.arr (g.nodes.map
              (fun n => Json.obj [("ID", Json.str n.ID),
                                  ("Metadata", Json.obj n.metadata)]))),
            ("Edges", Json.arr (g.edges.map
              (fun e => Json.obj [("ID", Json.str e.ID),
                                  ("Parent", Json.str e.parent),
                                  ("Child", Json.str e.child),
                                  ("Metadata", Json.obj e.metadata)])))]

/-- The two decode stages that can fail in `UnmarshalWSMessage`: the
generic `json.Unmarshal` of the payload, and the `Node.Decode` /
`Edge.Decode` shape check. -/
inductive DecodeErr where
  | unmarshal : DecodeErr
  | shape : DecodeErr

/-- The dynamic value (`interface{}`) returned by `UnmarshalWSMessage`:
the message itself, a decoded `*Node`, or a decoded `*Edge`. -/
inductive WSObj where
  | msg (m : WSMessage) : WSObj
  | node (n : Node) : WSObj
  | edge (e : Edge) : WSObj

/-- Embedding of `UnmarshalWSMessage` (server.go lines 42-76): returns the
event tag, the dynamic object, and the error (`none` = Go `nil`). -/
def UnmarshalWSMessage (msg : WSMessage) :
    String × WSObj × Option DecodeErr :=
  if msg.Ty = "SyncRequest" then
    (msg.Ty, WSObj.msg msg, none)
  else if msg.Ty = "SubGraphDeleted" ∨ msg.Ty = "NodeUpdated" ∨
          msg.Ty = "NodeDeleted" ∨ msg.Ty = "NodeAdded" then
    match msg.Obj with
    | RawJson.malformed => ("", WSObj.msg msg, some DecodeErr.unmarshal)
    | RawJson.wellFormed j =>
      match Node.decode j with
      | none => ("", WSObj.msg msg, some DecodeErr.shape)
      | some n => (msg.Ty, WSObj.node n, none)
  else if msg.Ty = "EdgeUpdated" ∨ msg.Ty = "EdgeDeleted" ∨
          msg.Ty = "EdgeAdded" then
    match msg.Obj with
    | RawJson.malformed => ("", WSObj.msg msg, some DecodeErr.unmarshal)
    | RawJson.wellFormed j =>
      match Edge.decode j with
      | none => ("", WSObj.msg msg, some DecodeErr.shape)
      | some e => (msg.Ty, WSObj.edge e, none)
  else
    ("", WSObj.msg msg, none)

/-- An outbound send performed while handling a message: a reply to one
client (`c.SendWSMessage`) or a broadcast to all connected peers
(`BroadcastWSMessage`). -/
inductive Sent where
  | toClient (client : Nat) (m : WSMessage) : Sent
  | broadcast (m : WSMessage) : Sent

/-- The observable outcome of one `OnMessage` invocation: the graph after
handling, the sends performed, and whether a decode error was logged. -/
structure DispatchResult where
  graph : Graph
  sent : List Sent
  errorLogged : Bool

/-- The dispatcher's switch on the decoded event tag (server.go lines
92-140). `none` models a Go runtime panic of a failed type assertion
(`obj.(*Node)` / `obj.(*Edge)`); the codec never feeds such a pair. -/
def dispatch (c : Nat) (g : Graph) (msgType : String) (obj : WSObj) :
    Option DispatchResult :=
  match msgType with
  | "SyncRequest" =>
    some { graph := g,
           sent := [Sent.toClient c
             { Namespace := Namespace, Ty := "SyncReply",
               Obj := RawJson.wellFormed g.marshal }],
           errorLogged := false }
  | "SubGraphDeleted" =>
    match obj with
    | WSObj.node n =>
      match g.GetNode n.ID with
      | some node => some { graph := g.DelSubGraph node, sent := [],
                            errorLogged := false }
      | none => some { graph := g, sent := [], errorLogged := false }
    | _ => none
  | "NodeUpdated" =>
    match obj with
    | WSObj.node n =>
      match g.GetNode n.ID with
      | some node => some { graph := g.SetNodeMetadata node n.metadata,
                            sent := [], errorLogged := false }
      | none => some { graph := g, sent := [], errorLogged := false }
    | _ => none
  | "NodeDeleted" =>
    match obj with
    | WSObj.node n => some { graph := g.DelNode n, sent := [],
                             errorLogged := false }
    | _ => none
  | "NodeAdded" =>
    match obj with
    | WSObj.node n =>
      match g.GetNode n.ID with
      | none => some { graph := g.AddNode n, sent := [],
                       errorLogged := false }
      | some _ => some { graph := g, sent := [], errorLogged := false }
    | _ => none
  | "EdgeUpdated" =>
    match obj with
    | WSObj.edge e =>
      match g.GetEdge e.ID with
      | some edge => some { graph := g.SetEdgeMetadata edge e.metadata,
                            sent := [], errorLogged := false }
      | none => some { graph := g, sent := [], errorLogged := false }
    | _ => none
  | "EdgeDeleted" =>
    match obj with
    | WSObj.edge e => some { graph := g.DelEdge e, sent := [],
                             errorLogged := false }
    | _ => none
  | "EdgeAdded" =>
    match obj with
    | WSObj.edge e =>
      match g.GetEdge e.ID with
      | none => some { graph := g.AddEdge e, sent := [],
                       errorLogged := false }
      | some _ => some { graph := g, sent := [], errorLogged := false }
    | _ => none
  | _ => some { graph := g, sent := [], errorLogged := false }

/-- Embedding of `GraphServer.OnMessage` (server.go lines 78-141). `c` is
the requesting connection's handle; the lock acquire/release brackets the
whole body and is implicit in the function being one atomic state
transformation. -/
def OnMessage (c : Nat) (g : Graph) (msg : WSMessage) :
    Option DispatchResult :=
  if msg.Namespace ≠ Namespace then
    some { graph := g, sent := [], errorLogged := false }
  else
    match UnmarshalWSMessage msg with
    | (_, _, some _) => some { graph := g, sent := [], errorLogged := true }
    | (msgType, obj, none) => dispatch c g msgType obj

/-- A local graph mutation as reported to the registered listener: the six
callback shapes of the event relay (server.go lines 143-189). -/
inductive Mutation where
  | nodeUpdated (n : Node) : Mutation
  | nodeAdded (n : Node) : Mutation
  | nodeDeleted (n : Node) : Mutation
  | edgeUpdated (e : Edge) : Mutation
  | edgeAdded (e : Edge) : Mutation
  | edgeDeleted (e : Edge) : Mutation

/-- Embedding of `GraphServer.OnNodeUpdated` (server.go lines 143-149):
the single message handed to `BroadcastWSMessage`. -/
def OnNodeUpdated (n : Node) : WSMessage :=
  { Namespace := Namespace, Ty := "NodeUpdated", Obj := n.jsonRawMessage }

/-- Embedding of `GraphServer.OnNodeAdded` (server.go lines 151-157). -/
def OnNodeAdded (n : Node) : WSMessage :=
  { Namespace := Namespace, Ty := "NodeAdded", Obj := n.jsonRawMessage }

/-- Embedding of `GraphServer.OnNodeDeleted` (server.go lines 159-165). -/
def OnNodeDeleted (n : Node) : WSMessage :=
  { Namespace := Namespace, Ty := "NodeDeleted", Obj := n.jsonRawMessage }

/-- Embedding of `GraphServer.OnEdgeUpdated` (server.go lines 167-173). -/
def OnEdgeUpdated (e : Edge) : WSMessage :=
  { Namespace := Namespace, Ty := "EdgeUpdated", Obj := e.jsonRawMessage }

/-- Embedding of `GraphServer.OnEdgeAdded` (server.go lines 175-181). -/
def OnEdgeAdded (e : Edge) : WSMessage :=
  { Namespace := Namespace, Ty := "EdgeAdded", Obj := e.jsonRawMessage }

/-- Embedding of `GraphServer.OnEdgeDeleted` (server.go lines 183-189). -/
def OnEdgeDeleted (e : Edge) : WSMessage :=
  { Namespace := Namespace, Ty := "EdgeDeleted", Obj := e.jsonRawMessage }

/-- The relay's response to one reported mutation: the graph invokes the
matching listener callback, which broadcasts exactly one message. -/
def relayMutation : Mutation → WSMessage
  | Mutation.nodeUpdated n => OnNodeUpdated n
  | Mutation.nodeAdded n => OnNodeAdded n
  | Mutation.nodeDeleted n => OnNodeDeleted n
  | Mutation.edgeUpdated e => OnEdgeUpdated e
  | Mutation.edgeAdded e => OnEdgeAdded e
  | Mutation.edgeDeleted e => OnEdgeDeleted e

/-- The relay applied to a sequence of mutations in the order they
occurred (the graph invokes listeners synchronously, spec section 4.3). -/
def relayAll (ms : List Mutation) : List WSMessage :=
  ms.map relayMutation

/-- The wire type name the spec assigns to each mutation kind. -/
def mutationTypeName : Mutation → String
  | Mutation.nodeUpdated _ => "NodeUpdated"
  | Mutation.nodeAdded _ => "NodeAdded"
  | Mutation.nodeDeleted _ => "NodeDeleted"
  | Mutation.edgeUpdated _ => "EdgeUpdated"
  | Mutation.edgeAdded _ => "EdgeAdded"
  | Mutation.edgeDeleted _ => "EdgeDeleted"

/-- The serialized form of the entity carried by a mutation. -/
def mutationPayload : Mutation → RawJson
  | Mutation.nodeUpdated n => n.jsonRawMessage
  | Mutation.nodeAdded n => n.jsonRawMessage
  | Mutation.nodeDeleted n => n.jsonRawMessage
  | Mutation.edgeUpdated e => e.jsonRawMessage
  | Mutation.edgeAdded e => e.jsonRawMessage
  | Mutation.edgeDeleted e => e.jsonRawMessage

/-- Number of nodes in the graph carrying the given identity. -/
def Graph.nodeCount (g : Graph) (id : String) : Nat :=
  (g.nodes.filter (fun m => m.ID == id)).length

/-- Number of edges in the graph carrying the given identity. -/
def Graph.edgeCount (g : Graph) (id : String) : Nat :=
  (g.edges.filter (fun m => m.ID == id)).length

/-- The nine wire types recognized by the protocol (spec section 6: the
eight inbound kinds of the decoded-event union plus the outbound
`SyncReply`). -/
def recognizedTypes : List String :=
  ["SyncRequest", "SyncReply", "SubGraphDeleted", "NodeUpdated",
   "NodeDeleted", "NodeAdded", "EdgeUpdated", "EdgeDeleted", "EdgeAdded"]

/-! ## Concrete fixtures used by the witness theorems -/

/-- An empty graph. -/
def exGraph0 : Graph := { nodes := [], edges := [] }

/-- A graph holding one node `n1` and one edge `e1`. -/
def exGraph1 : Graph :=
  { nodes := [{ ID := "n1", metadata := [("x", Json.num 1)] }],
    edges := [{ ID := "e1", parent := "n1", child := "n2",
                metadata := [("y", Json.num 1)] }] }

/-- A well-formed `NodeAdded` message for node `n1`. -/
def exNodeAddMsg : WSMessage :=
  { Namespace := "Graph", Ty := "NodeAdded",
    Obj := RawJson.wellFormed (Json.obj [("ID", Json.str "n1")]) }

/-- A well-formed `EdgeAdded` message for edge `e1`. -/
def exEdgeAddMsg : WSMessage :=
  { Namespace := "Graph", Ty := "EdgeAdded",
    Obj := RawJson.wellFormed (Json.obj
      [("ID", Json.str "e1"), ("Parent", Json.str "n1"),
       ("Child", Json.str "n2")]) }

/-- A `SyncRequest` message. -/
def exSyncMsg : WSMessage :=
  { Namespace := "Graph", Ty := "SyncRequest",
    Obj := RawJson.wellFormed Json.null }

/-- A well-formed `NodeUpdated` message carrying new metadata for `n1`. -/
def exNodeUpdMsg : WSMessage :=
  { Namespace := "Graph", Ty := "NodeUpdated",
    Obj := RawJson.wellFormed (Json.obj
      [("ID", Json.str "n1"),
       ("Metadata", Json.obj [("x", Json.num 2)])]) }

/-- A well-formed `EdgeUpdated` message carrying new metadata for `e1`. -/
def exEdgeUpdMsg : WSMessage :=
  { Namespace := "Graph", Ty := "EdgeUpdated",
    Obj := RawJson.wellFormed (Json.obj
      [("ID", Json.str "e1"), ("Parent", Json.str "n1"),
       ("Child", Json.str "n2"),
       ("Metadata", Json.obj [("y", Json.num 2)])]) }

/-- A `NodeDeleted` message for a node identity `nX` that no fixture graph
contains. -/
def exNodeDelMsg : WSMessage :=
  { Namespace := "Graph", Ty := "NodeDeleted",
    Obj := RawJson.wellFormed (Json.obj [("ID", Json.str "nX")]) }

/-- An `EdgeDeleted` message for an edge identity `eX` that no fixture
graph contains. -/
def exEdgeDelMsg : WSMessage :=
  { Namespace := "Graph", Ty := "EdgeDeleted",
    Obj := RawJson.wellFormed (Json.obj
      [("ID", Json.str "eX"), ("Parent", Json.str "n1"),
       ("Child", Json.str "n2")]) }

/-- A graph-namespace message whose payload fails the generic JSON parse
stage. -/
def malformedMsg : WSMessage :=
  { Namespace := "Graph", Ty := "NodeAdded", Obj := RawJson.malformed }

/-- A well-formed `NodeAdded` envelope carried under a namespace other
than the graph namespace. -/
def outsideNsMsg : WSMessage :=
  { Namespace := "Flow", Ty := "NodeAdded",
    Obj := RawJson.wellFormed (Json.obj [("ID", Json.str "n1")]) }

/-- A graph-namespace message of a type outside the recognized nine. -/
def unknownTypeMsg : WSMessage :=
  { Namespace := "Graph", Ty := "Bogus", Obj := RawJson.malformed }

/-! ## Helper lemmas -/

theorem OnMessage_decoded (c : Nat) (g : Graph) (msg : WSMessage)
    (t : String) (obj : WSObj)
    (hns : msg.Namespace = Namespace)
    (hdec : UnmarshalWSMessage msg = (t, obj, none)) :
    OnMessage c g msg = dispatch c g t obj := by
  unfold OnMessage
  rw [hdec, hns]
  simp

theorem OnMessage_err (c : Nat) (g : Graph) (msg : WSMessage)
    (t : String) (obj : WSObj) (e : DecodeErr)
    (hns : msg.Namespace = Namespace)
    (hdec : UnmarshalWSMessage msg = (t, obj, some e)) :
    OnMessage c g msg =
      some { graph := g, sent := [], errorLogged := true } := by
  unfold OnMessage
  rw [hdec, hns]
  simp

theorem OnMessage_badNamespace (c : Nat) (g : Graph) (msg : WSMessage)
    (h : msg.Namespace ≠ Namespace) :
    OnMessage c g msg =
      some { graph := g, sent := [], errorLogged := false } := by
  unfold OnMessage
  simp [h]

theorem dispatch_nodeAdded (c : Nat) (g : Graph) (n : Node) :
    dispatch c g "NodeAdded" (WSObj.node n) =
      match g.GetNode n.ID with
      | none => some { graph := g.AddNode n, sent := [],
                       errorLogged := false }
      | some _ => some { graph := g, sent := [], errorLogged := false } :=
  rfl

theorem dispatch_edgeAdded (c : Nat) (g : Graph) (e : Edge) :
    dispatch c g "EdgeAdded" (WSObj.edge e) =
      match g.GetEdge e.ID with
      | none => some { graph := g.AddEdge e, sent := [],
                       errorLogged := false }
      | some _ => some { graph := g, sent := [], errorLogged := false } :=
  rfl

theorem dispatch_nodeUpdated (c : Nat) (g : Graph) (n : Node) :
    dispatch c g "NodeUpdated" (WSObj.node n) =
      match g.GetNode n.ID with
      | some node => some { graph := g.SetNodeMetadata node n.metadata,
                            sent := [], errorLogged := false }
      | none => some { graph := g, sent := [], errorLogged := false } :=
  rfl

theorem dispatch_edgeUpdated (c : Nat) (g : Graph) (e : Edge) :
    dispatch c g "EdgeUpdated" (WSObj.edge e) =
      match g.GetEdge e.ID with
      | some edge => some { graph := g.SetEdgeMetadata edge e.metadata,
                            sent := [], errorLogged := false }
      | none => some { graph := g, sent := [], errorLogged := false } :=
  rfl

theorem dispatch_nodeDeleted (c : Nat) (g : Graph) (n : Node) :
    dispatch c g "NodeDeleted" (WSObj.node n) =
      some { graph := g.DelNode n, sent := [], errorLogged := false } :=
  rfl

theorem dispatch_edgeDeleted (c : Nat) (g : Graph) (e : Edge) :
    dispatch c g "EdgeDeleted" (WSObj.edge e) =
      some { graph := g.DelEdge e, sent := [], errorLogged := false } :=
  rfl

theorem getNode_eq_none_iff (g : Graph) (id : String) :
    g.GetNode id = none ↔ ∀ m ∈ g.nodes, m.ID ≠ id := by
  unfold Graph.GetNode
  rw [List.find?_eq_none]
  simp

theorem getEdge_eq_none_iff (g : Graph) (id : String) :
    g.GetEdge id = none ↔ ∀ m ∈ g.edges, m.ID ≠ id := by
  unfold Graph.GetEdge
  rw [List.find?_eq_none]
  simp

theorem getNode_addNode_self (g : Graph) (n : Node) :
    ∃ m, (g.AddNode n).GetNode n.ID = some m := by
  cases h : (g.AddNode n).GetNode n.ID with
  | some m => exact ⟨m, rfl⟩
  | none =>
    rw [getNode_eq_none_iff] at h
    exact absurd rfl (h n (by simp [Graph.AddNode]))

theorem getEdge_addEdge_self (g : Graph) (e : Edge) :
    ∃ m, (g.AddEdge e).GetEdge e.ID = some m := by
  cases h : (g.AddEdge e).GetEdge e.ID with
  | some m => exact ⟨m, rfl⟩
  | none =>
    rw [getEdge_eq_none_iff] at h
    exact absurd rfl (h e (by simp [Graph.AddEdge]))

theorem nodeCount_addNode (g : Graph) (n : Node) :
    (g.AddNode n).nodeCount n.ID = g.nodeCount n.ID + 1 := by
  simp [Graph.nodeCount, Graph.AddNode, List.filter_append]

theorem edgeCount_addEdge (g : Graph) (e : Edge) :
    (g.AddEdge e).edgeCount e.ID = g.edgeCount e.ID + 1 := by
  simp [Graph.edgeCount, Graph.AddEdge, List.filter_append]

theorem delNode_absent (g : Graph) (n : Node)
    (h : g.GetNode n.ID = none) : g.DelNode n = g := by
  rw [getNode_eq_none_iff] at h
  unfold Graph.DelNode
  have hf : g.nodes.filter (fun m => !(m.ID == n.ID)) = g.nodes :=
    List.filter_eq_self.mpr (fun m hm => by simp [h m hm])
  rw [hf]

theorem delEdge_absent (g : Graph) (e : Edge)
    (h : g.GetEdge e.ID = none) : g.DelEdge e = g := by
  rw [getEdge_eq_none_iff] at h
  unfold Graph.DelEdge
  have hf : g.edges.filter (fun m => !(m.ID == e.ID)) = g.edges :=
    List.filter_eq_self.mpr (fun m hm => by simp [h m hm])
  rw [hf]

theorem nodeCount_eq_zero_iff (g : Graph) (id : String) :
    g.nodeCount id = 0 ↔ g.GetNode id = none := by
  rw [getNode_eq_none_iff]
  unfold Graph.nodeCount
  rw [List.length_eq_zero, List.filter_eq_nil_iff]
  simp

theorem edgeCount_eq_zero_iff (g : Graph) (id : String) :
    g.edgeCount id = 0 ↔ g.GetEdge id = none := by
  rw [getEdge_eq_none_iff]
  unfold Graph.edgeCount
  rw [List.length_eq_zero, List.filter_eq_nil_iff]
  simp

theorem unmarshal_syncRequest (msg : WSMessage) (h : msg.Ty = "SyncRequest") :
    UnmarshalWSMessage msg = ("SyncRequest", WSObj.msg msg, none) := by
  unfold UnmarshalWSMessage
  rw [h]
  simp

theorem unmarshal_unknown (msg : WSMessage)
    (h : msg.Ty ∉ recognizedTypes) :
    UnmarshalWSMessage msg = ("", WSObj.msg msg, none) := by
  simp only [recognizedTypes, List.mem_cons, List.not_mem_nil, or_false,
    not_or] at h
  obtain ⟨h1, h2, h3, h4, h5, h6, h7, h8, h9⟩ := h
  unfold UnmarshalWSMessage
  simp [h1, h3, h4, h5, h6, h7, h8, h9]

theorem dispatch_syncRequest (c : Nat) (g : Graph) (obj : WSObj) :
    dispatch c g "SyncRequest" obj =
      some { graph := g,
             sent := [Sent.toClient c
               { Namespace := Namespace, Ty := "SyncReply",
                 Obj := RawJson.wellFormed g.marshal }],
             errorLogged := false } := rfl

theorem dispatch_subGraphDeleted (c : Nat) (g : Graph) (n : Node) :
    dispatch c g "SubGraphDeleted" (WSObj.node n) =
      match g.GetNode n.ID with
      | some node => some { graph := g.DelSubGraph node, sent := [],
                            errorLogged := false }
      | none => some { graph := g, sent := [], errorLogged := false } :=
  rfl

theorem getNode_some_id (g : Graph) (id : String) (m : Node)
    (h : g.GetNode id = some m) : m.ID = id := by
  unfold Graph.GetNode at h
  have := List.find?_some h
  simpa using this

theorem getEdge_some_id (g : Graph) (id : String) (m : Edge)
    (h : g.GetEdge id = some m) : m.ID = id := by
  unfold Graph.GetEdge at h
  have := List.find?_some h
  simpa using this

/-! ## Claim theorems -/

/-- C1: a `NodeAdded` (resp. `EdgeAdded`) message whose carried ID is
already present adds nothing, and delivering the same add message twice in
sequence leaves exactly one node (resp. edge) with that ID, the second
delivery being a no-op. -/
theorem addMessage_duplicate_idempotent :
    (∀ (c : Nat) (g : Graph) (msg : WSMessage) (n : Node),
      msg.Namespace = Namespace →
      UnmarshalWSMessage msg = ("NodeAdded", WSObj.node n, none) →
      ((∃ m, g.GetNode n.ID = some m) →
        OnMessage c g msg =
          some { graph := g, sent := [], errorLogged := false }) ∧
      ∃ d1, OnMessage c g msg = some d1 ∧ d1.sent = [] ∧
        OnMessage c d1.graph msg =
          some { graph := d1.graph, sent := [], errorLogged := false } ∧
        (g.nodeCount n.ID = 0 → d1.graph.nodeCount n.ID = 1)) ∧
    (∀ (c : Nat) (g : Graph) (msg : WSMessage) (e : Edge),
      msg.Namespace = Namespace →
      UnmarshalWSMessage msg = ("EdgeAdded", WSObj.edge e, none) →
      ((∃ m, g.GetEdge e.ID = some m) →
        OnMessage c g msg =
          some { graph := g, sent := [], errorLogged := false }) ∧
      ∃ d1, OnMessage c g msg = some d1 ∧ d1.sent = [] ∧
        OnMessage c d1.graph msg =
          some { graph := d1.graph, sent := [], errorLogged := false } ∧
        (g.edgeCount e.ID = 0 → d1.graph.edgeCount e.ID = 1)) := by
  constructor
  · intro c g msg n hns hdec
    have hd := OnMessage_decoded c g msg _ _ hns hdec
    rw [dispatch_nodeAdded] at hd
    constructor
    · rintro ⟨m, hm⟩
      rw [hm] at hd
      exact hd
    · cases hget : g.GetNode n.ID with
      | some m =>
        rw [hget] at hd
        refine ⟨_, hd, rfl, ?_, ?_⟩
        · have hd2 := OnMessage_decoded c g msg _ _ hns hdec
          rw [dispatch_nodeAdded, hget] at hd2
          exact hd2
        · intro h0
          rw [nodeCount_eq_zero_iff, hget] at h0
          exact absurd h0 (by simp)
      | none =>
        rw [hget] at hd
        refine ⟨_, hd, rfl, ?_, ?_⟩
        · have hd2 := OnMessage_decoded c (g.AddNode n) msg _ _ hns hdec
          rw [dispatch_nodeAdded] at hd2
          obtain ⟨m, hm⟩ := getNode_addNode_self g n
          rw [hm] at hd2
          exact hd2
        · intro h0
          show (g.AddNode n).nodeCount n.ID = 1
          rw [nodeCount_addNode, h0]
  · intro c g msg e hns hdec
    have hd := OnMessage_decoded c g msg _ _ hns hdec
    rw [dispatch_edgeAdded] at hd
    constructor
    · rintro ⟨m, hm⟩
      rw [hm] at hd
      exact hd
    · cases hget : g.GetEdge e.ID with
      | some m =>
        rw [hget] at hd
        refine ⟨_, hd, rfl, ?_, ?_⟩
        · have hd2 := OnMessage_decoded c g msg _ _ hns hdec
          rw [dispatch_edgeAdded, hget] at hd2
          exact hd2
        · intro h0
          rw [edgeCount_eq_zero_iff, hget] at h0
          exact absurd h0 (by simp)
      | none =>
        rw [hget] at hd
        refine ⟨_, hd, rfl, ?_, ?_⟩
        · have hd2 := OnMessage_decoded c (g.AddEdge e) msg _ _ hns hdec
          rw [dispatch_edgeAdded] at hd2
          obtain ⟨m, hm⟩ := getEdge_addEdge_self g e
          rw [hm] at hd2
          exact hd2
        · intro h0
          show (g.AddEdge e).edgeCount e.ID = 1
          rw [edgeCount_addEdge, h0]

/-- C1 witness: delivering `exNodeAddMsg` twice to the empty graph leaves
exactly one node `n1`, and the second delivery is a no-op. -/
theorem addMessage_duplicate_idempotent_witness :
    ∃ d1, OnMessage 0 exGraph0 exNodeAddMsg = some d1 ∧ d1.sent = [] ∧
      OnMessage 0 d1.graph exNodeAddMsg =
        some { graph := d1.graph, sent := [], errorLogged := false } ∧
      (exGraph0.nodeCount "n1" = 0 → d1.graph.nodeCount "n1" = 1) :=
  (addMessage_duplicate_idempotent.1 0 exGraph0 exNodeAddMsg
    { ID := "n1", metadata := [] } rfl rfl).2

/-- C2: a graph-namespace `SyncRequest` message makes the dispatcher send
exactly one `SyncReply`, in the graph namespace, carrying the serialized
entire current graph, to the requesting connection only, with no graph
mutation. -/
theorem syncRequest_single_reply_no_mutation (c : Nat) (g : Graph)
    (msg : WSMessage)
    (hns : msg.Namespace = Namespace) (hty : msg.Ty = "SyncRequest") :
    OnMessage c g msg =
      some { graph := g,
             sent := [Sent.toClient c
               { Namespace := Namespace, Ty := "SyncReply",
                 Obj := RawJson.wellFormed g.marshal }],
             errorLogged := false } := by
  have hd := OnMessage_decoded c g msg _ _ hns (unmarshal_syncRequest msg hty)
  rw [dispatch_syncRequest] at hd
  exact hd

/-- C2 witness: a `SyncRequest` against the two-entity graph `exGraph1`
yields exactly one `SyncReply` carrying the whole serialized graph. -/
theorem syncRequest_single_reply_no_mutation_witness :
    OnMessage 7 exGraph1 exSyncMsg =
      some { graph := exGraph1,
             sent := [Sent.toClient 7
               { Namespace := Namespace, Ty := "SyncReply",
                 Obj := RawJson.wellFormed exGraph1.marshal }],
             errorLogged := false } :=
  syncRequest_single_reply_no_mutation 7 exGraph1 exSyncMsg rfl rfl

/-- C4: a `NodeUpdated` (resp. `EdgeUpdated`) message for an ID absent
from the graph leaves the graph completely unchanged; for a present ID
only that entity's metadata is replaced with the incoming metadata. -/
theorem updateMessage_stale_dropped_metadata_replaced :
    (∀ (c : Nat) (g : Graph) (msg : WSMessage) (n : Node),
      msg.Namespace = Namespace →
      UnmarshalWSMessage msg = ("NodeUpdated", WSObj.node n, none) →
      (g.GetNode n.ID = none →
        OnMessage c g msg =
          some { graph := g, sent := [], errorLogged := false }) ∧
      (∀ m, g.GetNode n.ID = some m →
        OnMessage c g msg =
          some { graph :=
                   { nodes := g.nodes.map (fun x =>
                       if x.ID == n.ID then { x with metadata := n.metadata }
                       else x),
                     edges := g.edges },
                 sent := [], errorLogged := false })) ∧
    (∀ (c : Nat) (g : Graph) (msg : WSMessage) (e : Edge),
      msg.Namespace = Namespace →
      UnmarshalWSMessage msg = ("EdgeUpdated", WSObj.edge e, none) →
      (g.GetEdge e.ID = none →
        OnMessage c g msg =
          some { graph := g, sent := [], errorLogged := false }) ∧
      (∀ m, g.GetEdge e.ID = some m →
        OnMessage c g msg =
          some { graph :=
                   { nodes := g.nodes,
                     edges := g.edges.map (fun x =>
                       if x.ID == e.ID then { x with metadata := e.metadata }
                       else x) },
                 sent := [], errorLogged := false })) := by
  constructor
  · intro c g msg n hns hdec
    have hd := OnMessage_decoded c g msg _ _ hns hdec
    rw [dispatch_nodeUpdated] at hd
    constructor
    · intro hget
      rw [hget] at hd
      exact hd
    · intro m hget
      rw [hget] at hd
      have hid : m.ID = n.ID := getNode_some_id g _ m hget
      unfold Graph.SetNodeMetadata at hd
      simp only [hid] at hd
      exact hd
  · intro c g msg e hns hdec
    have hd := OnMessage_decoded c g msg _ _ hns hdec
    rw [dispatch_edgeUpdated] at hd
    constructor
    · intro hget
      rw [hget] at hd
      exact hd
    · intro m hget
      rw [hget] at hd
      have hid : m.ID = e.ID := getEdge_some_id g _ m hget
      unfold Graph.SetEdgeMetadata at hd
      simp only [hid] at hd
      exact hd

/-- C4 witness: updating present node `n1` in `exGraph1` replaces exactly
its metadata, leaving the edge list untouched. -/
theorem updateMessage_stale_dropped_metadata_replaced_witness :
    OnMessage 0 exGraph1 exNodeUpdMsg =
      some { graph :=
               { nodes := [{ ID := "n1", metadata := [("x", Json.num 2)] }],
                 edges := exGraph1.edges },
             sent := [], errorLogged := false } :=
  (updateMessage_stale_dropped_metadata_replaced.1 0 exGraph1 exNodeUpdMsg
      { ID := "n1", metadata := [("x", Json.num 2)] } rfl rfl).2
    { ID := "n1", metadata := [("x", Json.num 1)] } rfl

/-- C5: a `NodeDeleted` (resp. `EdgeDeleted`) message whose carried ID
does not exist in the graph does not fail and leaves the graph unchanged
(the dispatcher deletes unconditionally; the graph's delete of a
non-existent entity is the spec-modelled safe no-op). -/
theorem deleteMessage_absent_noop :
    (∀ (c : Nat) (g : Graph) (msg : WSMessage) (n : Node),
      msg.Namespace = Namespace →
      UnmarshalWSMessage msg = ("NodeDeleted", WSObj.node n, none) →
      g.GetNode n.ID = none →
      OnMessage c g msg =
        some { graph := g, sent := [], errorLogged := false }) ∧
    (∀ (c : Nat) (g : Graph) (msg : WSMessage) (e : Edge),
      msg.Namespace = Namespace →
      UnmarshalWSMessage msg = ("EdgeDeleted", WSObj.edge e, none) →
      g.GetEdge e.ID = none →
      OnMessage c g msg =
        some { graph := g, sent := [], errorLogged := false }) := by
  constructor
  · intro c g msg n hns hdec hget
    have hd := OnMessage_decoded c g msg _ _ hns hdec
    rw [dispatch_nodeDeleted, delNode_absent g n hget] at hd
    exact hd
  · intro c g msg e hns hdec hget
    have hd := OnMessage_decoded c g msg _ _ hns hdec
    rw [dispatch_edgeDeleted, delEdge_absent g e hget] at hd
    exact hd

/-- C5 witness: deleting the unknown node `nX` from `exGraph1` succeeds
and changes nothing. -/
theorem deleteMessage_absent_noop_witness :
    OnMessage 0 exGraph1 exNodeDelMsg =
      some { graph := exGraph1, sent := [], errorLogged := false } :=
  deleteMessage_absent_noop.1 0 exGraph1 exNodeDelMsg
    { ID := "nX", metadata := [] } rfl rfl rfl

/-- C6: a graph-namespace message whose payload fails either decode stage
is logged and dropped: the graph is unchanged and nothing is sent. -/
theorem decode_error_logged_no_mutation_no_reply (c : Nat) (g : Graph)
    (msg : WSMessage)
    (hns : msg.Namespace = Namespace)
    (herr : ∃ t o e, UnmarshalWSMessage msg = (t, o, some e)) :
    OnMessage c g msg =
      some { graph := g, sent := [], errorLogged := true } := by
  obtain ⟨t, o, e, hdec⟩ := herr
  exact OnMessage_err c g msg t o e hns hdec

/-- C6 witness: a `NodeAdded` message whose payload fails the raw JSON
parse stage is dropped with the error logged, leaving `exGraph1` as is. -/
theorem decode_error_logged_no_mutation_no_reply_witness :
    OnMessage 0 exGraph1 malformedMsg =
      some { graph := exGraph1, sent := [], errorLogged := true } :=
  decode_error_logged_no_mutation_no_reply 0 exGraph1 malformedMsg rfl
    ⟨"", WSObj.msg malformedMsg, DecodeErr.unmarshal, rfl⟩

/-- C7: a message whose namespace differs from the graph namespace causes
zero mutations and zero sends, whatever its type or payload. -/
theorem foreign_namespace_no_mutation_no_reply (c : Nat) (g : Graph)
    (msg : WSMessage) (h : msg.Namespace ≠ Namespace) :
    OnMessage c g msg =
      some { graph := g, sent := [], errorLogged := false } :=
  OnMessage_badNamespace c g msg h

/-- C7 witness: a well-formed `NodeAdded` envelope in namespace `Flow`
leaves `exGraph1` untouched and sends nothing. -/
theorem foreign_namespace_no_mutation_no_reply_witness :
    OnMessage 0 exGraph1 outsideNsMsg =
      some { graph := exGraph1, sent := [], errorLogged := false } :=
  foreign_namespace_no_mutation_no_reply 0 exGraph1 outsideNsMsg
    (by decide)

/-- C8: a graph-namespace message of a type outside the nine recognized
ones decodes to the empty event tag with no error, and handling it causes
zero mutations and zero sends. -/
theorem unknown_type_tolerated (c : Nat) (g : Graph) (msg : WSMessage)
    (hns : msg.Namespace = Namespace)
    (hty : msg.Ty ∉ recognizedTypes) :
    UnmarshalWSMessage msg = ("", WSObj.msg msg, none) ∧
    OnMessage c g msg =
      some { graph := g, sent := [], errorLogged := false } := by
  have hu := unmarshal_unknown msg hty
  exact ⟨hu, OnMessage_decoded c g msg _ _ hns hu⟩

/-- C8 witness: a graph-namespace message of type `Bogus` produces no
event, no error, no mutation and no send. -/
theorem unknown_type_tolerated_witness :
    UnmarshalWSMessage unknownTypeMsg =
      ("", WSObj.msg unknownTypeMsg, none) ∧
    OnMessage 0 exGraph1 unknownTypeMsg =
      some { graph := exGraph1, sent := [], errorLogged := false } :=
  unknown_type_tolerated 0 exGraph1 unknownTypeMsg rfl (by decide)

/-- C3: the relay answers each reported local mutation with exactly one
outbound broadcast — matching type, graph namespace, serialized entity —
and in the order the mutations occurred: the i-th broadcast corresponds to
the i-th mutation. -/
theorem relay_one_broadcast_per_mutation_in_order (ms : List Mutation) :
    (relayAll ms).length = ms.length ∧
    ∀ (i : Nat) (m : Mutation), ms[i]? = some m →
      (relayAll ms)[i]? =
        some { Namespace := Namespace, Ty := mutationTypeName m,
               Obj := mutationPayload m } := by
  constructor
  · simp [relayAll]
  · intro i m hm
    have hone : relayMutation m =
        { Namespace := Namespace, Ty := mutationTypeName m,
          Obj := mutationPayload m } := by
      cases m <;> rfl
    simp [relayAll, List.getElem?_map, hm, hone]

/-- C3 witness: a two-mutation history (add node `n1`, then delete edge
`e1`) relays as exactly two broadcasts in that order. -/
theorem relay_one_broadcast_per_mutation_in_order_witness :
    (relayAll [Mutation.nodeAdded (Node.mk "n1" []),
               Mutation.edgeDeleted (Edge.mk "e1" "n1" "n2" [])]).length
        = 2 ∧
    (relayAll [Mutation.nodeAdded (Node.mk "n1" []),
               Mutation.edgeDeleted (Edge.mk "e1" "n1" "n2" [])])[1]? =
      some { Namespace := Namespace,
             Ty := mutationTypeName
               (Mutation.edgeDeleted (Edge.mk "e1" "n1" "n2" [])),
             Obj := mutationPayload
               (Mutation.edgeDeleted (Edge.mk "e1" "n1" "n2" [])) } :=
  ⟨(relay_one_broadcast_per_mutation_in_order _).1,
   (relay_one_broadcast_per_mutation_in_order _).2 1 _ rfl⟩

/-- C9 counterexample: `UnmarshalWSMessage` does not inspect the
namespace. For the concrete envelope `outsideNsMsg`, whose namespace
`Flow` differs from the graph namespace, the codec still returns a decoded
`NodeAdded` event with a `Node` object and no error, refuting the claim
that the codec yields "no event" for out-of-namespace envelopes. -/
theorem codec_ignores_namespace_counterexample :
    outsideNsMsg.Namespace ≠ Namespace ∧
    UnmarshalWSMessage outsideNsMsg =
      ("NodeAdded", WSObj.node { ID := "n1", metadata := [] }, none) :=
  ⟨by decide, rfl⟩

/-- C9 amended: the codec is namespace-blind — the event tag and the error
it returns do not depend on the envelope's namespace — and out-of-namespace
filtering happens instead in the dispatcher, which returns before invoking
the codec, so such messages produce zero mutations and zero sends. -/
theorem codec_namespace_blind_dispatcher_filters :
    (∀ (msg : WSMessage) (ns : String),
      (UnmarshalWSMessage { msg with Namespace := ns }).1 =
        (UnmarshalWSMessage msg).1 ∧
      (UnmarshalWSMessage { msg with Namespace := ns }).2.2 =
        (UnmarshalWSMessage msg).2.2) ∧
    (∀ (c : Nat) (g : Graph) (msg : WSMessage),
      msg.Namespace ≠ Namespace →
      OnMessage c g msg =
        some { graph := g, sent := [], errorLogged := false }) := by
  constructor
  · intro msg ns
    unfold UnmarshalWSMessage
    by_cases h1 : msg.Ty = "SyncRequest"
    · simp [h1]
    · by_cases h2 : msg.Ty = "SubGraphDeleted" ∨ msg.Ty = "NodeUpdated" ∨
          msg.Ty = "NodeDeleted" ∨ msg.Ty = "NodeAdded"
      · cases hobj : msg.Obj with
        | malformed => simp [h1, h2, hobj]
        | wellFormed j =>
          cases hd : Node.decode j <;> simp [h1, h2, hobj, hd]
      · by_cases h3 : msg.Ty = "EdgeUpdated" ∨ msg.Ty = "EdgeDeleted" ∨
            msg.Ty = "EdgeAdded"
        · cases hobj : msg.Obj with
          | malformed => simp [h1, h2, h3, hobj]
          | wellFormed j =>
            cases hd : Edge.decode j <;> simp [h1, h2, h3, hobj, hd]
        · simp [h1, h2, h3]
  · intro c g msg h
    exact OnMessage_badNamespace c g msg h

/-- C9 witness: concretely, rewriting `outsideNsMsg` into namespace `X`
changes neither the codec's tag nor its error, and dispatching the
out-of-namespace `outsideNsMsg` leaves `exGraph0` alone. -/
theorem codec_namespace_blind_dispatcher_filters_witness :
    ((UnmarshalWSMessage { outsideNsMsg with Namespace := "X" }).1 =
       (UnmarshalWSMessage outsideNsMsg).1 ∧
     (UnmarshalWSMessage { outsideNsMsg with Namespace := "X" }).2.2 =
       (UnmarshalWSMessage outsideNsMsg).2.2) ∧
    OnMessage 0 exGraph0 outsideNsMsg =
      some { graph := exGraph0, sent := [], errorLogged := false } :=
  ⟨codec_namespace_blind_dispatcher_filters.1 outsideNsMsg "X",
   codec_namespace_blind_dispatcher_filters.2 0 exGraph0 outsideNsMsg
     (by decide)⟩

/-- C10: tag/value consistency of the codec — a non-nil error always comes
with the empty tag; a nil error with a node tag always carries a decoded
`Node`; a nil error with an edge tag always carries a decoded `Edge`; and
consequently the dispatcher's unchecked type assertions never fail
(`OnMessage` never panics). -/
theorem unmarshal_tag_value_consistent (msg : WSMessage) (t : String)
    (o : WSObj) (err : Option DecodeErr)
    (hdec : UnmarshalWSMessage msg = (t, o, err)) :
    (err ≠ none → t = "") ∧
    ((t = "SubGraphDeleted" ∨ t = "NodeUpdated" ∨ t = "NodeDeleted" ∨
        t = "NodeAdded") → err = none → ∃ n, o = WSObj.node n) ∧
    ((t = "EdgeUpdated" ∨ t = "EdgeDeleted" ∨ t = "EdgeAdded") →
        err = none → ∃ e, o = WSObj.edge e) ∧
    (∀ (c : Nat) (g : Graph), OnMessage c g msg ≠ none) := by
  by_cases h1 : msg.Ty = "SyncRequest"
  · have hu := unmarshal_syncRequest msg h1
    have h := hu.symm.trans hdec
    simp only [Prod.mk.injEq] at h
    obtain ⟨rfl, rfl, rfl⟩ := h
    refine ⟨fun h => absurd rfl h, by simp, by simp, ?_⟩
    intro c g
    by_cases hns : msg.Namespace = Namespace
    · rw [OnMessage_decoded c g msg _ _ hns hu, dispatch_syncRequest]
      simp
    · rw [OnMessage_badNamespace c g msg hns]; simp
  · by_cases h2 : msg.Ty = "SubGraphDeleted" ∨ msg.Ty = "NodeUpdated" ∨
        msg.Ty = "NodeDeleted" ∨ msg.Ty = "NodeAdded"
    · cases hobj : msg.Obj with
      | malformed =>
        have hu : UnmarshalWSMessage msg =
            ("", WSObj.msg msg, some DecodeErr.unmarshal) := by
          unfold UnmarshalWSMessage; simp [h1, h2, hobj]
        have h := hu.symm.trans hdec
        simp only [Prod.mk.injEq] at h
        obtain ⟨rfl, rfl, rfl⟩ := h
        refine ⟨fun _ => rfl, by simp, by simp, ?_⟩
        intro c g
        by_cases hns : msg.Namespace = Namespace
        · rw [OnMessage_err c g msg _ _ _ hns hu]; simp
        · rw [OnMessage_badNamespace c g msg hns]; simp
      | wellFormed j =>
        cases hd : Node.decode j with
        | none =>
          have hu : UnmarshalWSMessage msg =
              ("", WSObj.msg msg, some DecodeErr.shape) := by
            unfold UnmarshalWSMessage; simp [h1, h2, hobj, hd]
          have h := hu.symm.trans hdec
          simp only [Prod.mk.injEq] at h
          obtain ⟨rfl, rfl, rfl⟩ := h
          refine ⟨fun _ => rfl, by simp, by simp, ?_⟩
          intro c g
          by_cases hns : msg.Namespace = Namespace
          · rw [OnMessage_err c g msg _ _ _ hns hu]; simp
          · rw [OnMessage_badNamespace c g msg hns]; simp
        | some n =>
          have hu : UnmarshalWSMessage msg =
              (msg.Ty, WSObj.node n, none) := by
            unfold UnmarshalWSMessage; simp [h1, h2, hobj, hd]
          have h := hu.symm.trans hdec
          simp only [Prod.mk.injEq] at h
          obtain ⟨rfl, rfl, rfl⟩ := h
          refine ⟨fun h => absurd rfl h, fun _ _ => ⟨n, rfl⟩, ?_, ?_⟩
          · intro hor _
            rcases h2 with ha|ha|ha|ha <;> rcases hor with hb|hb|hb <;>
              (rw [ha] at hb; simp at hb)
          · intro c g
            by_cases hns : msg.Namespace = Namespace
            · rw [OnMessage_decoded c g msg _ _ hns hu]
              rcases h2 with ha|ha|ha|ha <;> rw [ha]
              · rw [dispatch_subGraphDeleted]
                cases g.GetNode n.ID <;> simp
              · rw [dispatch_nodeUpdated]
                cases g.GetNode n.ID <;> simp
              · rw [dispatch_nodeDeleted]; simp
              · rw [dispatch_nodeAdded]
                cases g.GetNode n.ID <;> simp
            · rw [OnMessage_badNamespace c g msg hns]; simp
    · by_cases h3 : msg.Ty = "EdgeUpdated" ∨ msg.Ty = "EdgeDeleted" ∨
          msg.Ty = "EdgeAdded"
      · cases hobj : msg.Obj with
        | malformed =>
          have hu : UnmarshalWSMessage msg =
              ("", WSObj.msg msg, some DecodeErr.unmarshal) := by
            unfold UnmarshalWSMessage; simp [h1, h2, h3, hobj]
          have h := hu.symm.trans hdec
          simp only [Prod.mk.injEq] at h
          obtain ⟨rfl, rfl, rfl⟩ := h
          refine ⟨fun _ => rfl, by simp, by simp, ?_⟩
          intro c g
          by_cases hns : msg.Namespace = Namespace
          · rw [OnMessage_err c g msg _ _ _ hns hu]; simp
          · rw [OnMessage_badNamespace c g msg hns]; simp
        | wellFormed j =>
          cases hd : Edge.decode j with
          | none =>
            have hu : UnmarshalWSMessage msg =
                ("", WSObj.msg msg, some DecodeErr.shape) := by
              unfold UnmarshalWSMessage; simp [h1, h2, h3, hobj, hd]
            have h := hu.symm.trans hdec
            simp only [Prod.mk.injEq] at h
            obtain ⟨rfl, rfl, rfl⟩ := h
            refine ⟨fun _ => rfl, by simp, by simp, ?_⟩
            intro c g
            by_cases hns : msg.Namespace = Namespace
            · rw [OnMessage_err c g msg _ _ _ hns hu]; simp
            · rw [OnMessage_badNamespace c g msg hns]; simp
          | some e =>
            have hu : UnmarshalWSMessage msg =
                (msg.Ty, WSObj.edge e, none) := by
              unfold UnmarshalWSMessage; simp [h1, h2, h3, hobj, hd]
            have h := hu.symm.trans hdec
            simp only [Prod.mk.injEq] at h
            obtain ⟨rfl, rfl, rfl⟩ := h
            refine ⟨fun h => absurd rfl h, ?_, fun _ _ => ⟨e, rfl⟩, ?_⟩
            · intro hor _
              rcases h3 with ha|ha|ha <;> rcases hor with hb|hb|hb|hb <;>
                (rw [ha] at hb; simp at hb)
            · intro c g
              by_cases hns : msg.Namespace = Namespace
              · rw [OnMessage_decoded c g msg _ _ hns hu]
                rcases h3 with ha|ha|ha <;> rw [ha]
                · rw [dispatch_edgeUpdated]
                  cases g.GetEdge e.ID <;> simp
                · rw [dispatch_edgeDeleted]; simp
                · rw [dispatch_edgeAdded]
                  cases g.GetEdge e.ID <;> simp
              · rw [OnMessage_badNamespace c g msg hns]; simp
      · have hu : UnmarshalWSMessage msg = ("", WSObj.msg msg, none) := by
          unfold UnmarshalWSMessage; simp [h1, h2, h3]
        have h := hu.symm.trans hdec
        simp only [Prod.mk.injEq] at h
        obtain ⟨rfl, rfl, rfl⟩ := h
        refine ⟨fun _ => rfl, by simp, by simp, ?_⟩
        intro c g
        by_cases hns : msg.Namespace = Namespace
        · rw [OnMessage_decoded c g msg _ _ hns hu]
          have hde : dispatch c g "" (WSObj.msg msg) =
              some { graph := g, sent := [], errorLogged := false } := rfl
          rw [hde]; simp
        · rw [OnMessage_badNamespace c g msg hns]; simp

/-- C10 witness: on the concrete `exEdgeAddMsg` the codec returns the
`EdgeAdded` tag with a decoded `Edge` and no error, and handling it never
hits a failed type assertion. -/
theorem unmarshal_tag_value_consistent_witness :
    OnMessage 0 exGraph1 exEdgeAddMsg ≠ none :=
  (unmarshal_tag_value_consistent exEdgeAddMsg "EdgeAdded"
    (WSObj.edge (Edge.mk "e1" "n1" "n2" [])) none rfl).2.2.2 0 exGraph1

end Skydive
